import Mathlib

/-!
Verification of the kanban workflow-state synchronization and positioning
model of the surgical patient hub.

The definitions below are a shallow embedding of the TypeScript source:

* `surgeryStatusToKanbanColumn`, `syncPatientKanbanWithSurgery` and
  `useSurgeryStatusSync`'s overdue sweep come from the status-sync hook
  (`src/unnamed/part_006`);
* `moveCardMutation`, `updateCardPositionMutation`, `handleCardDrop`,
  `addCardMutation` and `getCardsForColumn` come from the kanban board
  component (`src/src/components/kanban/ManageBoardDialog.tsx`);
* the row store's `UNIQUE(patient_id, board_id)` constraint comes from the
  first migration (`src/unnamed/part_001`);
* the checklist read/write of a card's `notes` field comes from
  `src/src/components/kanban/PatientCardDialog.tsx`, together with a model
  of the ECMAScript `JSON.parse` / `JSON.stringify` builtins.

Database rows are modelled as Lean structures with the source's column
names; ids are `Nat`, timestamps are `Int`, nullable columns are `Option`.
Each remote `update`/`insert` call becomes a pure function on the list of
rows it touches.
-/

/-- A surgery row (table `surgeries`, `src/unnamed/part_001`).  The
`status` column is free TEXT in the schema, so it is modelled as `String`;
the five values used by the app are
`scheduled / pending / in_progress / completed / cancelled`. -/
structure Surgery where
  id : Nat
  patient_id : Nat
  status : String
  scheduled_date : Option Int
  deriving DecidableEq

/-- The patient columns joined onto a card by the board page's select
(`patient:patients(id, name, medical_record_number)`). -/
structure PatientInfo where
  id : Nat
  name : String
  medical_record_number : Option String
  deriving DecidableEq

/-- A kanban card row (table `kanban_cards`, `src/unnamed/part_001` plus the
`manual_override` column added by the later migration).  The `patient`
field is the optional joined patient record of the board page's query. -/
structure KanbanCard where
  id : Nat
  board_id : Nat
  patient_id : Nat
  column_name : String
  position : Nat
  priority : String
  scheduled_date : Option Int
  surgery_type : Option String
  notes : Option String
  manual_override : Bool
  patient : Option PatientInfo
  deriving DecidableEq

/-- A column of a board's `columns_config` array. -/
structure KanbanColumn where
  id : String
  name : String
  color : String
  deriving DecidableEq

/-! ## Status-Sync Policy (`src/unnamed/part_006`) -/

/-- Mapping between surgery status and kanban column
(`surgeryStatusToKanbanColumn`, part_006 lines 17-23).  The TypeScript
value is a `Record<string, string>`; lookup of an unknown key yields
`undefined`, modelled as `none`. -/
def surgeryStatusToKanbanColumn : String → Option String
  | "scheduled" => some "scheduled"
  | "pending" => some "pending"
  | "in_progress" => some "pending"
  | "completed" => some "operated"
  | "cancelled" => some "waiting"
  | _ => none

/-- Predicate of the next-surgery query of `syncPatientKanbanWithSurgery`
(part_006 lines 82-90): the patient's surgeries whose status is neither
`completed` nor `cancelled`. -/
def nonTerminalFor (patientId : Nat) (s : Surgery) : Bool :=
  s.patient_id == patientId && s.status != "completed" && s.status != "cancelled"

/-- Ascending order on nullable `scheduled_date` as produced by
`.order("scheduled_date", { ascending: true })`: PostgREST sorts ascending
with NULLs last by default. -/
def dateLE (a b : Option Int) : Bool :=
  match a, b with
  | some x, some y => x ≤ y
  | some _, none => true
  | none, some _ => false
  | none, none => true

/-- The `limit(1).maybeSingle()` result of the next-surgery query: the
patient's non-terminal surgeries ordered ascending by `scheduled_date`
(stable sort, NULLs last), first row if any. -/
def nextSurgeryFor (surgeries : List Surgery) (patientId : Nat) : Option Surgery :=
  ((surgeries.filter (nonTerminalFor patientId)).mergeSort
    (fun a b => dateLE a.scheduled_date b.scheduled_date)).head?

/-- Target-column derivation of `syncPatientKanbanWithSurgery`
(part_006 lines 97-109): `waiting` when there is no next surgery; `pending`
when the next surgery is `scheduled` with a date strictly before `now`;
otherwise the status map's value, defaulting to `waiting`. -/
def deriveTargetColumn (now : Int) (nextSurgery : Option Surgery) : String :=
  match nextSurgery with
  | none => "waiting"
  | some s =>
    let pastScheduled : Bool :=
      match s.scheduled_date with
      | some d => decide (d < now) && s.status == "scheduled"
      | none => false
    if pastScheduled then "pending"
    else (surgeryStatusToKanbanColumn s.status).getD "waiting"

/-- Per-patient resync (`syncPatientKanbanWithSurgery`, part_006 lines
80-116): derives the target column from the patient's next surgery and
issues an update of `column_name` filtered by `patient_id` alone, i.e.
rewrites the column of every card of that patient. -/
def syncPatientKanbanWithSurgery (now : Int) (surgeries : List Surgery)
    (cards : List KanbanCard) (patientId : Nat) : List KanbanCard :=
  let newColumn := deriveTargetColumn now (nextSurgeryFor surgeries patientId)
  cards.map (fun c =>
    if c.patient_id == patientId then { c with column_name := newColumn } else c)

/-- Joint state of the two tables touched by the overdue sweep. -/
structure SyncState where
  surgeries : List Surgery
  cards : List KanbanCard
  deriving DecidableEq

/-- Overdue predicate of the sweep's select (part_006 lines 37-41):
`status = scheduled` and `scheduled_date < now` (a NULL date never
satisfies an SQL `<`). -/
def isOverdue (now : Int) (s : Surgery) : Bool :=
  s.status == "scheduled" &&
    (match s.scheduled_date with
     | some d => decide (d < now)
     | none => false)

/-- Global overdue sweep of `useSurgeryStatusSync` (part_006 lines 32-74):
if no surgery is overdue, return early; otherwise set the overdue
surgeries' status to `pending`, then move the affected patients' cards
matching `column_name = scheduled` to `pending`.  The `[...new Set(...)]`
patient-id dedup is `List.dedup`. -/
def updateOverdueSurgeries (now : Int) (st : SyncState) : SyncState :=
  let overdue := st.surgeries.filter (isOverdue now)
  if overdue.isEmpty then st
  else
    let overdueIds := overdue.map (fun s => s.id)
    let surgeries2 := st.surgeries.map (fun s =>
      if overdueIds.contains s.id then { s with status := "pending" } else s)
    let patientIds := (overdue.map (fun s => s.patient_id)).dedup
    let cards2 := st.cards.map (fun c =>
      if patientIds.contains c.patient_id && c.column_name == "scheduled"
      then { c with column_name := "pending" } else c)
  { surgeries := surgeries2, cards := cards2 }

/-! ## Board State Model (`ManageBoardDialog.tsx` board page) -/

/-- Errors of the board operations, per the error taxonomy of the spec's
section 7; `DuplicateCard` is the store's unique-constraint violation. -/
inductive BoardError where
  | NotFound
  | InvalidColumn
  | DuplicateCard
  deriving DecidableEq

/-- Cross-column move (`moveCardMutation`, ManageBoardDialog lines
399-418): update `column_name` and `manual_override := true`, and
`position` only when `newPosition` is supplied, on the row matching
`cardId`. -/
def moveCardMutation (cards : List KanbanCard) (cardId : Nat)
    (newColumn : String) (newPosition : Option Nat) : List KanbanCard :=
  cards.map (fun c =>
    if c.id == cardId then
      { c with column_name := newColumn, manual_override := true,
               position := newPosition.getD c.position }
    else c)

/-- Same-column reorder (`updateCardPositionMutation`, ManageBoardDialog
lines 421-432): update `position` alone on the row matching `cardId`. -/
def updateCardPositionMutation (cards : List KanbanCard) (cardId : Nat)
    (newPosition : Nat) : List KanbanCard :=
  cards.map (fun c =>
    if c.id == cardId then { c with position := newPosition } else c)

/-- Drop dispatcher (`handleCardDrop`, ManageBoardDialog lines 502-516):
with a dragged card that exists and whose column differs from the target,
run the move mutation with position defaulted to the count of cards in the
target column; with a same-column drop carrying a position, run the
position mutation; otherwise do nothing. -/
def handleCardDrop (cards : List KanbanCard) (draggedCard : Option Nat)
    (columnId : String) (targetPosition : Option Nat) : List KanbanCard :=
  match draggedCard with
  | none => cards
  | some cid =>
    match cards.find? (fun c => c.id == cid) with
    | some card =>
      if card.column_name != columnId then
        moveCardMutation cards cid columnId
          (some (targetPosition.getD
            (cards.filter (fun c => c.column_name == columnId)).length))
      else
        match targetPosition with
        | some tp => updateCardPositionMutation cards cid tp
        | none => cards
    | none => cards

/-- Row built by `addCardMutation` (ManageBoardDialog lines 446-453): the
insert passes board, patient, column, surgery type, priority and
`position := cards.filter((c) => c.column_name === columnId).length`; the
remaining columns take their database defaults (`manual_override` false,
nullable columns NULL). -/
def mkCard (boardId nextId patientId : Nat) (columnId : String)
    (surgeryType : Option String) (priority : String) (pos : Nat) : KanbanCard :=
  { id := nextId, board_id := boardId, patient_id := patientId,
    column_name := columnId, position := pos, priority := priority,
    scheduled_date := none, surgery_type := surgeryType, notes := none,
    manual_override := false, patient := none }

/-- Row-store insert into `kanban_cards`: the schema's
`UNIQUE(patient_id, board_id)` constraint (part_001 line 92) rejects a
second card for the same patient and board; otherwise the row is
appended. -/
def cardInsert (cards : List KanbanCard) (newCard : KanbanCard) :
    Except BoardError (List KanbanCard) :=
  if cards.any (fun c =>
      c.patient_id == newCard.patient_id && c.board_id == newCard.board_id)
  then Except.error BoardError.DuplicateCard
  else Except.ok (cards ++ [newCard])

/-- Card creation (`addCardMutation`, ManageBoardDialog lines 434-465):
inserts the new row with position equal to the current count of cards in
the target column; a store error is thrown to the caller. -/
def addCardMutation (cards : List KanbanCard) (boardId nextId patientId : Nat)
    (columnId : String) (surgeryType : Option String) (priority : String) :
    Except BoardError (List KanbanCard) :=
  cardInsert cards
    (mkCard boardId nextId patientId columnId surgeryType priority
      (cards.filter (fun c => c.column_name == columnId)).length)

/-- One user-level add action: on success the query cache is refetched, on
failure the previous card list is kept and the error is surfaced. -/
def addCardStep (cards : List KanbanCard) (boardId nextId patientId : Nat)
    (columnId : String) (surgeryType : Option String) (priority : String) :
    List KanbanCard × Option BoardError :=
  match addCardMutation cards boardId nextId patientId columnId surgeryType priority with
  | Except.ok cards2 => (cards2, none)
  | Except.error e => (cards, some e)

/-- A write request issued to the row store by a board operation. -/
inductive StoreRequest where
  | updateCards (cardId : Nat) (newColumn : Option String)
      (setOverride : Option Bool) (newPosition : Option Nat)
  | insertCard (card : KanbanCard)
  deriving DecidableEq

/-- Store requests issued by `handleCardDrop` (same dispatch as
`handleCardDrop`, recording the supabase calls instead of their effect):
the move branch issues one update carrying column, override and position;
the reorder branch issues one update carrying position alone; the other
branches issue nothing. -/
def handleCardDropRequests (cards : List KanbanCard) (draggedCard : Option Nat)
    (columnId : String) (targetPosition : Option Nat) : List StoreRequest :=
  match draggedCard with
  | none => []
  | some cid =>
    match cards.find? (fun c => c.id == cid) with
    | some card =>
      if card.column_name != columnId then
        [StoreRequest.updateCards cid (some columnId) (some true)
          (some (targetPosition.getD
            (cards.filter (fun c => c.column_name == columnId)).length))]
      else
        match targetPosition with
        | some tp => [StoreRequest.updateCards cid none none (some tp)]
        | none => []
    | none => []

/-- Store requests issued by `addCardMutation`: the insert is issued
unconditionally; no local duplicate check precedes it. -/
def addCardRequests (cards : List KanbanCard) (boardId nextId patientId : Nat)
    (columnId : String) (surgeryType : Option String) (priority : String) :
    List StoreRequest :=
  [StoreRequest.insertCard
    (mkCard boardId nextId patientId columnId surgeryType priority
      (cards.filter (fun c => c.column_name == columnId)).length)]

/-! ## Column view with filters (`getCardsForColumn`, ManageBoardDialog
lines 583-615) -/

/-- Filter bundle of the board page.  `search` is `none` when the search
box is empty (the falsy check `if (filters.search)` skips the block);
`urgency` is `"all"` or a priority value; the date bounds are optional. -/
structure BoardFilters where
  search : Option String
  urgency : String
  dateFrom : Option Int
  dateTo : Option Int
  deriving DecidableEq

/-- JavaScript `String.prototype.includes`: substring containment. -/
def jsIncludes (hay needle : String) : Bool :=
  decide (needle.data <:+: hay.data)

/-- The filter predicate applied card-by-card (ManageBoardDialog lines
588-613): free-text match over patient name, medical record number and
surgery type (each guarded by optional chaining), priority equality unless
the filter is `"all"`, and an inclusive date range using date-fns
`isBefore` / `isAfter`; a card without `scheduled_date` is rejected when
either date bound is set. -/
def matchesFilters (filters : BoardFilters) (card : KanbanCard) : Bool :=
  (match filters.search with
   | some q =>
     let query := q.toLower
     let matchesName :=
       match card.patient with
       | some p => jsIncludes p.name.toLower query
       | none => false
     let matchesMrn :=
       match card.patient with
       | some p =>
         match p.medical_record_number with
         | some m => jsIncludes m.toLower query
         | none => false
       | none => false
     let matchesSurgeryType :=
       match card.surgery_type with
       | some t => jsIncludes t.toLower query
       | none => false
     matchesName || matchesMrn || matchesSurgeryType
   | none => true) &&
  (filters.urgency == "all" || card.priority == filters.urgency) &&
  (match card.scheduled_date with
   | some d =>
     (match filters.dateFrom with
      | some lo => !decide (d < lo)
      | none => true) &&
     (match filters.dateTo with
      | some hi => !decide (hi < d)
      | none => true)
   | none => filters.dateFrom == none && filters.dateTo == none)

/-- Column view (`getCardsForColumn`): the board's cards restricted to the
column, sorted ascending by `position` (stable, as `Array.prototype.sort`),
then filtered by the predicate. -/
def getCardsForColumn (cards : List KanbanCard) (columnId : String)
    (filters : BoardFilters) : List KanbanCard :=
  ((cards.filter (fun c => c.column_name == columnId)).mergeSort
    (fun a b => a.position ≤ b.position)).filter (matchesFilters filters)

/-! ## Theorems: Status-Sync Policy -/

/-- A card whose column was manually pinned (override latch set). -/
def overrideCard : KanbanCard :=
  { id := 3, board_id := 1, patient_id := 7, column_name := "operated",
    position := 0, priority := "normal", scheduled_date := none,
    surgery_type := none, notes := none, manual_override := true,
    patient := none }

/-- A scheduled surgery of the same patient dated in the future. -/
def futureSurgery : Surgery :=
  { id := 21, patient_id := 7, status := "scheduled", scheduled_date := some 100 }

/-- C1: the per-patient resync's card update is filtered by `patient_id`
alone and never consults `manual_override`, although the code's own
comments and toast describe the flag as disabling auto-sync for the card.
At `now = 50`, patient 7's next surgery is `scheduled` in the future, so
the derived column is `scheduled`; the resync rewrites the column of the
patient's card even though its `manual_override` is `true`. -/
theorem resync_overwrites_manual_override :
    overrideCard.manual_override = true ∧
    overrideCard.column_name = "operated" ∧
    syncPatientKanbanWithSurgery 50 [futureSurgery] [overrideCard] 7
      = [{ overrideCard with column_name := "scheduled" }] := by
  refine ⟨rfl, rfl, ?_⟩
  simp [syncPatientKanbanWithSurgery, nextSurgeryFor, nonTerminalFor,
    futureSurgery, overrideCard, List.mergeSort_singleton, deriveTargetColumn,
    surgeryStatusToKanbanColumn]

/-- C2: the target-column derivation of the resync agrees with the spec's
derivation table: no qualifying surgery gives `waiting`; a `scheduled`
surgery strictly past due gives `pending`; `scheduled` with a future or
absent date gives `scheduled`; `pending` and `in_progress` give `pending`;
`completed` gives `operated`; `cancelled` gives `waiting`. -/
theorem derive_target_column_table (now d : Int) (s : Surgery) :
    deriveTargetColumn now none = "waiting"
    ∧ (s.status = "scheduled" → s.scheduled_date = some d → d < now →
        deriveTargetColumn now (some s) = "pending")
    ∧ (s.status = "scheduled" → s.scheduled_date = some d → ¬ d < now →
        deriveTargetColumn now (some s) = "scheduled")
    ∧ (s.status = "scheduled" → s.scheduled_date = none →
        deriveTargetColumn now (some s) = "scheduled")
    ∧ ((s.status = "pending" ∨ s.status = "in_progress") →
        deriveTargetColumn now (some s) = "pending")
    ∧ (s.status = "completed" → deriveTargetColumn now (some s) = "operated")
    ∧ (s.status = "cancelled" → deriveTargetColumn now (some s) = "waiting") := by
  refine ⟨rfl, ?_, ?_, ?_, ?_, ?_, ?_⟩
  · intro hs hd hlt
    simp [deriveTargetColumn, hs, hd, hlt]
  · intro hs hd hge
    simp [deriveTargetColumn, hs, hd, hge, surgeryStatusToKanbanColumn]
  · intro hs hd
    simp [deriveTargetColumn, hs, hd, surgeryStatusToKanbanColumn]
  · intro hs
    rcases hs with hs | hs <;>
      rcases hdate : s.scheduled_date with _ | d2 <;>
        simp [deriveTargetColumn, hs, hdate, surgeryStatusToKanbanColumn]
  · intro hs
    rcases hdate : s.scheduled_date with _ | d2 <;>
      simp [deriveTargetColumn, hs, hdate, surgeryStatusToKanbanColumn]
  · intro hs
    rcases hdate : s.scheduled_date with _ | d2 <;>
      simp [deriveTargetColumn, hs, hdate, surgeryStatusToKanbanColumn]

/-- Witness for `derive_target_column_table` at concrete surgeries and
`now = 10`. -/
theorem derive_target_column_table_witness :
    deriveTargetColumn 10 none = "waiting"
    ∧ deriveTargetColumn 10 (some ⟨1, 7, "scheduled", some 5⟩) = "pending"
    ∧ deriveTargetColumn 10 (some ⟨1, 7, "scheduled", some 15⟩) = "scheduled"
    ∧ deriveTargetColumn 10 (some ⟨1, 7, "scheduled", none⟩) = "scheduled"
    ∧ deriveTargetColumn 10 (some ⟨1, 7, "in_progress", some 5⟩) = "pending"
    ∧ deriveTargetColumn 10 (some ⟨1, 7, "completed", some 5⟩) = "operated"
    ∧ deriveTargetColumn 10 (some ⟨1, 7, "cancelled", some 5⟩) = "waiting" :=
  ⟨(derive_target_column_table 10 0 ⟨1, 7, "scheduled", none⟩).1,
   (derive_target_column_table 10 5 ⟨1, 7, "scheduled", some 5⟩).2.1 rfl rfl (by decide),
   (derive_target_column_table 10 15 ⟨1, 7, "scheduled", some 15⟩).2.2.1 rfl rfl (by decide),
   (derive_target_column_table 10 0 ⟨1, 7, "scheduled", none⟩).2.2.2.1 rfl rfl,
   (derive_target_column_table 10 5 ⟨1, 7, "in_progress", some 5⟩).2.2.2.2.1 (Or.inr rfl),
   (derive_target_column_table 10 5 ⟨1, 7, "completed", some 5⟩).2.2.2.2.2.1 rfl,
   (derive_target_column_table 10 5 ⟨1, 7, "cancelled", some 5⟩).2.2.2.2.2.2 rfl⟩

/-- Expected per-surgery effect of the sweep, as the claim states it:
every `scheduled` surgery dated strictly in the past becomes `pending`,
every other surgery is untouched. -/
def sweepSpecSurgery (now : Int) (s : Surgery) : Surgery :=
  if isOverdue now s then { s with status := "pending" } else s

/-- Expected per-card effect of the sweep, as the claim states it: a card
moves to `pending` exactly when its patient has an overdue surgery and the
card's column is `scheduled`, regardless of `manual_override`. -/
def sweepSpecCard (now : Int) (surgeries : List Surgery) (c : KanbanCard) : KanbanCard :=
  if (surgeries.filter (isOverdue now)).any (fun s => s.patient_id == c.patient_id)
      && c.column_name == "scheduled"
  then { c with column_name := "pending" } else c

/-- Membership form of the sweep's deduplicated patient-id list. -/
theorem contains_dedup_patients (l : List Surgery) (pid : Nat) :
    ((l.map (fun s => s.patient_id)).dedup).contains pid
      = l.any (fun s => s.patient_id == pid) := by
  rcases h : l.any (fun s => s.patient_id == pid) with _ | _
  · simp only [List.any_eq_false] at h
    simp only [List.contains, List.elem_eq_mem, List.mem_dedup, List.mem_map,
      decide_eq_false_iff_not, not_exists, not_and]
    intro s hs heq
    exact absurd (by simp [heq]) (h s hs)
  · simp only [List.any_eq_true] at h
    obtain ⟨s, hs, heq⟩ := h
    simp only [List.contains, List.elem_eq_mem, List.mem_dedup, List.mem_map,
      decide_eq_true_eq]
    exact ⟨s, hs, by simpa using heq⟩

/-- C3: assuming distinct surgery ids (the primary key), the global
overdue sweep's effect on both tables is exactly the claimed one: every
overdue surgery flips to `pending`, and a card moves from `scheduled` to
`pending` iff its patient has an overdue surgery, `manual_override`
notwithstanding; all other rows are untouched. -/
theorem overdue_sweep_spec (now : Int) (st : SyncState)
    (hids : (st.surgeries.map (fun s => s.id)).Nodup) :
    (updateOverdueSurgeries now st).surgeries
        = st.surgeries.map (sweepSpecSurgery now)
    ∧ (updateOverdueSurgeries now st).cards
        = st.cards.map (sweepSpecCard now st.surgeries) := by
  unfold updateOverdueSurgeries
  by_cases hemp : (st.surgeries.filter (isOverdue now)).isEmpty
  · have hnil : st.surgeries.filter (isOverdue now) = [] := by
      simpa [List.isEmpty_iff] using hemp
    have hall : ∀ s ∈ st.surgeries, isOverdue now s = false := by
      intro s hs
      by_contra hcon
      have : s ∈ st.surgeries.filter (isOverdue now) :=
        List.mem_filter.mpr ⟨hs, by simpa using hcon⟩
      simp [hnil] at this
    constructor
    · simp only [hemp, if_true]
      symm
      calc st.surgeries.map (sweepSpecSurgery now)
          = st.surgeries.map id := by
            apply List.map_congr_left
            intro s hs
            simp [sweepSpecSurgery, hall s hs]
        _ = st.surgeries := List.map_id _
    · simp only [hemp, if_true]
      symm
      calc st.cards.map (sweepSpecCard now st.surgeries)
          = st.cards.map id := by
            apply List.map_congr_left
            intro c _
            simp [sweepSpecCard, hnil]
        _ = st.cards := List.map_id _
  · simp only [hemp, if_false]
    constructor
    · apply List.map_congr_left
      intro s hs
      by_cases hov : isOverdue now s = true
      · have hmem : s.id ∈ (st.surgeries.filter (isOverdue now)).map (fun s => s.id) :=
          List.mem_map.mpr ⟨s, List.mem_filter.mpr ⟨hs, hov⟩, rfl⟩
        simp [sweepSpecSurgery, hov, List.contains, List.elem_eq_mem, hmem]
      · have hnmem : s.id ∉ (st.surgeries.filter (isOverdue now)).map (fun s => s.id) := by
          intro hmem
          obtain ⟨s2, hs2, hid⟩ := List.mem_map.mp hmem
          have hs2mem : s2 ∈ st.surgeries := (List.mem_filter.mp hs2).1
          have hs2ov : isOverdue now s2 = true := (List.mem_filter.mp hs2).2
          have : s2 = s := List.inj_on_of_nodup_map hids hs2mem hs hid
          exact hov (this ▸ hs2ov)
        simp [sweepSpecSurgery, hov, List.contains, List.elem_eq_mem, hnmem]
    · apply List.map_congr_left
      intro c _
      rw [sweepSpecCard, contains_dedup_patients]

/-- Concrete sweep state: one overdue scheduled surgery (patient 7), one
completed surgery (patient 8); patient 7 has a pinned card in `scheduled`
and a card in `waiting`, patient 8 a card in `scheduled`. -/
def sweepState : SyncState :=
  { surgeries :=
      [ { id := 1, patient_id := 7, status := "scheduled", scheduled_date := some 0 },
        { id := 2, patient_id := 8, status := "completed", scheduled_date := some 0 } ],
    cards :=
      [ { id := 10, board_id := 1, patient_id := 7, column_name := "scheduled",
          position := 0, priority := "normal", scheduled_date := none,
          surgery_type := none, notes := none, manual_override := true,
          patient := none },
        { id := 11, board_id := 1, patient_id := 7, column_name := "waiting",
          position := 0, priority := "normal", scheduled_date := none,
          surgery_type := none, notes := none, manual_override := false,
          patient := none },
        { id := 12, board_id := 1, patient_id := 8, column_name := "scheduled",
          position := 1, priority := "normal", scheduled_date := none,
          surgery_type := none, notes := none, manual_override := false,
          patient := none } ] }

/-- Witness for `overdue_sweep_spec` at `sweepState` and `now = 5`. -/
theorem overdue_sweep_spec_witness :
    (sweepState.surgeries.map (fun s => s.id)).Nodup
    ∧ ((updateOverdueSurgeries 5 sweepState).surgeries
          = sweepState.surgeries.map (sweepSpecSurgery 5)
        ∧ (updateOverdueSurgeries 5 sweepState).cards
          = sweepState.cards.map (sweepSpecCard 5 sweepState.surgeries)) :=
  ⟨by decide, overdue_sweep_spec 5 sweepState (by decide)⟩

/-! ## Theorems: moveCard -/

/-- C4: a drop onto a different column runs the cross-column move: the
dragged card's row gets the target column, `manual_override := true`, and
the supplied position, defaulted to the count of cards currently in the
target column; every other row is untouched. -/
theorem moveCard_cross_latches (cards : List KanbanCard) (cid : Nat)
    (col : String) (tp : Option Nat) (card : KanbanCard)
    (hfind : cards.find? (fun c => c.id == cid) = some card)
    (hne : card.column_name ≠ col) :
    handleCardDrop cards (some cid) col tp =
      cards.map (fun c =>
        if c.id == cid then
          { c with column_name := col, manual_override := true,
                   position := tp.getD
                     (cards.filter (fun c2 => c2.column_name == col)).length }
        else c) := by
  have hbne : (card.column_name != col) = true := by simpa using hne
  simp only [handleCardDrop, hfind, hbne, if_true, moveCardMutation,
    Option.getD_some]

/-- Cards for the move witnesses: card 1 sits in `waiting`, card 2 in
`scheduled`. -/
def dropCardA : KanbanCard :=
  { id := 1, board_id := 1, patient_id := 10, column_name := "waiting",
    position := 0, priority := "normal", scheduled_date := none,
    surgery_type := none, notes := none, manual_override := false,
    patient := none }

/-- Second card for the move witnesses. -/
def dropCardB : KanbanCard :=
  { id := 2, board_id := 1, patient_id := 11, column_name := "scheduled",
    position := 0, priority := "high", scheduled_date := none,
    surgery_type := none, notes := none, manual_override := false,
    patient := none }

/-- Witness for `moveCard_cross_latches`: dropping card 1 onto `scheduled`
without an explicit position appends it at position 1 (one card already
there) and latches the override. -/
theorem moveCard_cross_latches_witness :
    handleCardDrop [dropCardA, dropCardB] (some 1) "scheduled" none
      = [{ dropCardA with column_name := "scheduled", manual_override := true, position := 1 },
         dropCardB] := by
  rw [moveCard_cross_latches [dropCardA, dropCardB] 1 "scheduled" none dropCardA
    (by decide) (by decide)]
  decide

/-- C5: a drop onto the card's own column carrying a position runs the
position-only mutation: the dragged card's row gets the new position and
nothing else changes — in particular `manual_override` and `column_name`
are untouched on every row. -/
theorem moveCard_same_column_position_only (cards : List KanbanCard)
    (cid : Nat) (col : String) (p : Nat) (card : KanbanCard)
    (hfind : cards.find? (fun c => c.id == cid) = some card)
    (heq : card.column_name = col) :
    handleCardDrop cards (some cid) col (some p) =
      cards.map (fun c =>
        if c.id == cid then { c with position := p } else c) := by
  have hbne : (card.column_name != col) = false := by simp [heq]
  simp only [handleCardDrop, hfind, hbne, Bool.false_eq_true, if_false,
    updateCardPositionMutation]

/-- Witness for `moveCard_same_column_position_only`: reordering card 2
within `scheduled` to position 4 changes only its position. -/
theorem moveCard_same_column_position_only_witness :
    handleCardDrop [dropCardA, dropCardB] (some 2) "scheduled" (some 4)
      = [dropCardA, { dropCardB with position := 4 }] := by
  rw [moveCard_same_column_position_only [dropCardA, dropCardB] 2 "scheduled" 4
    dropCardB (by decide) (by decide)]
  decide

/-! ## Theorems: addCard uniqueness and positions -/

/-- At most one card per (patient, board) pair. -/
def cardsPairUnique (cards : List KanbanCard) : Prop :=
  (cards.map (fun c => (c.patient_id, c.board_id))).Nodup

/-- Helper: an add for a pair that already has a card is rejected by the
store's unique constraint, keeping the card list as it was. -/
theorem addCardStep_duplicate (cards : List KanbanCard)
    (boardId nextId patientId : Nat) (columnId : String)
    (surgeryType : Option String) (priority : String)
    (hdup : cards.any (fun c => c.patient_id == patientId && c.board_id == boardId) = true) :
    addCardStep cards boardId nextId patientId columnId surgeryType priority
      = (cards, some BoardError.DuplicateCard) := by
  unfold addCardStep addCardMutation cardInsert
  have : cards.any (fun c =>
      c.patient_id == (mkCard boardId nextId patientId columnId surgeryType priority
          (cards.filter (fun c => c.column_name == columnId)).length).patient_id
      && c.board_id == (mkCard boardId nextId patientId columnId surgeryType priority
          (cards.filter (fun c => c.column_name == columnId)).length).board_id) = true := by
    simpa [mkCard] using hdup
  rw [if_pos this]

/-- C6: `addCard` preserves the per-(patient, board) uniqueness invariant,
and an add for a pair that already has a card fails with `DuplicateCard`
(the store's unique constraint) leaving the card set unchanged. -/
theorem addCard_unique (cards : List KanbanCard) (boardId nextId patientId : Nat)
    (columnId : String) (surgeryType : Option String) (priority : String)
    (hinv : cardsPairUnique cards) :
    (∀ cards2, addCardMutation cards boardId nextId patientId columnId surgeryType priority
        = Except.ok cards2 → cardsPairUnique cards2)
    ∧ (cards.any (fun c => c.patient_id == patientId && c.board_id == boardId) = true →
        addCardStep cards boardId nextId patientId columnId surgeryType priority
          = (cards, some BoardError.DuplicateCard)) := by
  constructor
  · intro cards2 hok
    unfold addCardMutation cardInsert at hok
    by_cases hdup :
        cards.any (fun c =>
          c.patient_id == (mkCard boardId nextId patientId columnId surgeryType priority
              (cards.filter (fun c => c.column_name == columnId)).length).patient_id
          && c.board_id == (mkCard boardId nextId patientId columnId surgeryType priority
              (cards.filter (fun c => c.column_name == columnId)).length).board_id) = true
    · rw [if_pos hdup] at hok
      cases hok
    · rw [if_neg hdup] at hok
      cases hok
      unfold cardsPairUnique at hinv ⊢
      rw [List.map_append, List.nodup_append]
      refine ⟨hinv, List.nodup_singleton _, ?_⟩
      intro x hx
      simp only [List.mem_map] at hx
      obtain ⟨c, hc, hcx⟩ := hx
      simp only [List.map_cons, List.map_nil, List.mem_singleton]
      intro hxeq
      apply hdup
      rw [List.any_eq_true]
      refine ⟨c, hc, ?_⟩
      have : (c.patient_id, c.board_id)
          = (patientId, boardId) := by rw [hcx, hxeq]; simp [mkCard]
      simp only [Prod.mk.injEq] at this
      simp [mkCard, this.1, this.2]
  · intro hdup
    exact addCardStep_duplicate cards boardId nextId patientId columnId
      surgeryType priority hdup

/-- A card occupying the (patient 5, board 2) pair. -/
def takenPairCard : KanbanCard :=
  { id := 50, board_id := 2, patient_id := 5, column_name := "waiting",
    position := 0, priority := "normal", scheduled_date := none,
    surgery_type := none, notes := none, manual_override := false,
    patient := none }

/-- Witness for `addCard_unique`: adding patient 5 to board 2 again is
rejected with `DuplicateCard` and the card list is unchanged. -/
theorem addCard_unique_witness :
    cardsPairUnique [takenPairCard]
    ∧ addCardStep [takenPairCard] 2 51 5 "scheduled" none "high"
        = ([takenPairCard], some BoardError.DuplicateCard) :=
  ⟨by unfold cardsPairUnique; decide,
   (addCard_unique [takenPairCard] 2 51 5 "scheduled" none "high"
     (by unfold cardsPairUnique; decide)).2 (by decide)⟩

/-! ## Theorems: validation behavior of moveCard and addCard -/

/-- The default column set of a board (ImportKanban's default
`columns_config`, part_006 second document, lines 180-186). -/
def defaultColumns : List KanbanColumn :=
  [ { id := "waiting", name := "Waiting List", color := "gray" },
    { id := "scheduled", name := "Scheduled", color := "yellow" },
    { id := "operated", name := "Operated", color := "green" },
    { id := "follow_up", name := "Follow-up", color := "blue" } ]

/-- Counterexample to C7: dropping card 1 onto the column id `bogus`,
which is not a column of the board, issues an update request to the row
store anyway (and, the drop handler having no error channel, no error can
reach the caller).  The claim says a local validation failure reaches no
store call. -/
theorem validation_counterexample :
    (defaultColumns.all (fun col => col.id != "bogus")) = true
    ∧ handleCardDropRequests [dropCardA] (some 1) "bogus" none
        = [StoreRequest.updateCards 1 (some "bogus") (some true) (some 0)]
    ∧ handleCardDropRequests [dropCardA] (some 1) "bogus" none ≠ [] := by
  refine ⟨by decide, by decide, by decide⟩

/-- C7 as amended: the board page performs no local validation.  A drop
whose `cardId` is unknown is silently dropped — no store call, but no
error either; a drop onto any different column id, valid on the board or
not, issues the update to the store; `addCard` always issues its insert,
the duplicate (patient, board) pair being rejected only by the store's
unique constraint, whose error is surfaced to the caller. -/
theorem board_ops_no_local_validation :
    (∀ (cards : List KanbanCard) (cid : Nat) (col : String) (tp : Option Nat),
      cards.find? (fun c => c.id == cid) = none →
        handleCardDropRequests cards (some cid) col tp = [])
    ∧ (∀ (cards : List KanbanCard) (cid : Nat) (col : String) (tp : Option Nat)
        (card : KanbanCard),
        cards.find? (fun c => c.id == cid) = some card →
        card.column_name ≠ col →
          handleCardDropRequests cards (some cid) col tp
            = [StoreRequest.updateCards cid (some col) (some true)
                (some (tp.getD
                  (cards.filter (fun c => c.column_name == col)).length))])
    ∧ (∀ (cards : List KanbanCard) (boardId nextId patientId : Nat)
        (columnId : String) (surgeryType : Option String) (priority : String),
        addCardRequests cards boardId nextId patientId columnId surgeryType priority
          = [StoreRequest.insertCard
              (mkCard boardId nextId patientId columnId surgeryType priority
                (cards.filter (fun c => c.column_name == columnId)).length)]
        ∧ (cards.any (fun c => c.patient_id == patientId && c.board_id == boardId) = true →
            addCardStep cards boardId nextId patientId columnId surgeryType priority
              = (cards, some BoardError.DuplicateCard))) := by
  refine ⟨?_, ?_, ?_⟩
  · intro cards cid col tp hfind
    simp only [handleCardDropRequests, hfind]
  · intro cards cid col tp card hfind hne
    have hbne : (card.column_name != col) = true := by simpa using hne
    simp only [handleCardDropRequests, hfind, hbne, if_true]
  · intro cards boardId nextId patientId columnId surgeryType priority
    refine ⟨rfl, ?_⟩
    intro hdup
    exact addCardStep_duplicate cards boardId nextId patientId columnId
      surgeryType priority hdup

/-- Witness for `board_ops_no_local_validation`: an unknown card id issues
no request; a duplicate add is turned back by the store with the list
unchanged. -/
theorem board_ops_no_local_validation_witness :
    handleCardDropRequests [dropCardA] (some 99) "scheduled" none = []
    ∧ addCardStep [takenPairCard] 2 60 5 "waiting" none "normal"
        = ([takenPairCard], some BoardError.DuplicateCard) :=
  ⟨board_ops_no_local_validation.1 [dropCardA] 99 "scheduled" none (by decide),
   (board_ops_no_local_validation.2.2 [takenPairCard] 2 60 5 "waiting" none
     "normal").2 (by decide)⟩

/-! ## Theorems: append positions of sequential adds -/

/-- Sequence of user-level add actions: each entry supplies the patient id
and the id the store generates for the new card. -/
def addPatientsSeq (boardId : Nat) (columnId priority : String) :
    List KanbanCard → List (Nat × Nat) → List KanbanCard
  | cards, [] => cards
  | cards, (pid, cid) :: rest =>
      addPatientsSeq boardId columnId priority
        (addCardStep cards boardId cid pid columnId none priority).1 rest

/-- Cards the sequential adds are expected to append to the column,
starting at position `k`. -/
def expectedCards (boardId : Nat) (columnId priority : String) :
    Nat → List (Nat × Nat) → List KanbanCard
  | _, [] => []
  | k, (pid, cid) :: rest =>
      mkCard boardId cid pid columnId none priority k
        :: expectedCards boardId columnId priority (k + 1) rest

/-- Helper: one successful add appends the new row with position equal to
the count of cards in the target column. -/
theorem addCardStep_fresh (cards : List KanbanCard)
    (boardId nextId patientId : Nat) (columnId : String)
    (surgeryType : Option String) (priority : String)
    (hfresh : cards.any (fun c => c.patient_id == patientId && c.board_id == boardId) = false) :
    addCardStep cards boardId nextId patientId columnId surgeryType priority
      = (cards ++ [mkCard boardId nextId patientId columnId surgeryType priority
          (cards.filter (fun c => c.column_name == columnId)).length], none) := by
  unfold addCardStep addCardMutation cardInsert
  have : cards.any (fun c =>
      c.patient_id == (mkCard boardId nextId patientId columnId surgeryType priority
          (cards.filter (fun c => c.column_name == columnId)).length).patient_id
      && c.board_id == (mkCard boardId nextId patientId columnId surgeryType priority
          (cards.filter (fun c => c.column_name == columnId)).length).board_id) = false := by
    simpa [mkCard] using hfresh
  rw [if_neg (by simp [this])]

/-- Helper: running the add sequence appends exactly the expected cards to
the target column's slice, positions counting up from the current count. -/
theorem addPatientsSeq_filter (boardId : Nat) (columnId priority : String)
    (ps : List (Nat × Nat)) :
    ∀ cards : List KanbanCard,
      (∀ pr ∈ ps, ∀ c ∈ cards, ¬(c.patient_id = pr.1 ∧ c.board_id = boardId)) →
      (ps.map Prod.fst).Nodup →
      (addPatientsSeq boardId columnId priority cards ps).filter
          (fun c => c.column_name == columnId)
        = cards.filter (fun c => c.column_name == columnId)
          ++ expectedCards boardId columnId priority
              (cards.filter (fun c => c.column_name == columnId)).length ps := by
  induction ps with
  | nil =>
    intro cards _ _
    simp [addPatientsSeq, expectedCards]
  | cons pr rest ih =>
    intro cards hfresh hnodup
    obtain ⟨pid, cid⟩ := pr
    have hany : cards.any (fun c => c.patient_id == pid && c.board_id == boardId) = false := by
      rw [List.any_eq_false]
      intro c hc
      have hnc := hfresh (pid, cid) (List.mem_cons_self _ _) c hc
      simp only [Bool.and_eq_true, beq_iff_eq]
      exact fun h => hnc ⟨h.1, h.2⟩
    have hstep := addCardStep_fresh cards boardId cid pid columnId none priority hany
    rw [addPatientsSeq, hstep]
    rw [List.map_cons] at hnodup
    have hhead : pid ∉ rest.map Prod.fst := (List.nodup_cons.mp hnodup).1
    have htail : (rest.map Prod.fst).Nodup := (List.nodup_cons.mp hnodup).2
    have hfresh2 : ∀ pr2 ∈ rest, ∀ c ∈ cards ++ [mkCard boardId cid pid columnId none priority
        (cards.filter (fun c => c.column_name == columnId)).length],
        ¬(c.patient_id = pr2.1 ∧ c.board_id = boardId) := by
      intro pr2 hpr2 c hc
      rcases List.mem_append.mp hc with hc | hc
      · exact hfresh pr2 (List.mem_cons_of_mem _ hpr2) c hc
      · have hceq : c = mkCard boardId cid pid columnId none priority
            (cards.filter (fun c => c.column_name == columnId)).length := by
          simpa using hc
        subst hceq
        simp only [mkCard]
        intro h
        have hne : pid ≠ pr2.1 := by
          intro heq
          exact hhead (heq ▸ List.mem_map.mpr ⟨pr2, hpr2, rfl⟩)
        exact hne h.1
    have hrest := ih (cards ++ [mkCard boardId cid pid columnId none priority
        (cards.filter (fun c => c.column_name == columnId)).length]) hfresh2 htail
    rw [hrest, List.filter_append]
    have hone : List.filter (fun c => c.column_name == columnId)
        [mkCard boardId cid pid columnId none priority
          (cards.filter (fun c => c.column_name == columnId)).length]
        = [mkCard boardId cid pid columnId none priority
            (cards.filter (fun c => c.column_name == columnId)).length] := by
      simp [mkCard]
    rw [hone, List.length_append, List.length_singleton, expectedCards,
      List.append_assoc]
    rfl

/-- Positions of the expected cards count up from `k`. -/
theorem expectedCards_pairs (boardId : Nat) (columnId priority : String)
    (ps : List (Nat × Nat)) :
    ∀ k, (expectedCards boardId columnId priority k ps).map
        (fun c => (c.patient_id, c.position))
      = (ps.map Prod.fst).zip (List.range' k ps.length) := by
  induction ps with
  | nil => intro k; simp [expectedCards]
  | cons pr rest ih =>
    intro k
    obtain ⟨pid, cid⟩ := pr
    rw [expectedCards]
    simp only [List.map_cons, List.length_cons, List.range'_succ, List.zip_cons_cons]
    rw [ih (k + 1)]
    rfl

/-- C8: a successful `addCard` appends the new row with position equal to
the current count of cards in the target column; consequently, adding N
fresh patients one after another to a column that starts empty yields
positions `0 .. N-1` in insertion order. -/
theorem addCard_append_positions (cards : List KanbanCard)
    (boardId nextId patientId : Nat) (columnId : String)
    (surgeryType : Option String) (priority : String) (ps : List (Nat × Nat)) :
    (∀ cards2, addCardMutation cards boardId nextId patientId columnId surgeryType priority
        = Except.ok cards2 →
        cards2 = cards ++ [mkCard boardId nextId patientId columnId surgeryType priority
          (cards.filter (fun c => c.column_name == columnId)).length])
    ∧ (cards.filter (fun c => c.column_name == columnId) = [] →
        (∀ pr ∈ ps, ∀ c ∈ cards, ¬(c.patient_id = pr.1 ∧ c.board_id = boardId)) →
        (ps.map Prod.fst).Nodup →
        ((addPatientsSeq boardId columnId priority cards ps).filter
            (fun c => c.column_name == columnId)).map
              (fun c => (c.patient_id, c.position))
          = (ps.map Prod.fst).zip (List.range ps.length)) := by
  constructor
  · intro cards2 hok
    unfold addCardMutation cardInsert at hok
    by_cases hdup :
        cards.any (fun c =>
          c.patient_id == (mkCard boardId nextId patientId columnId surgeryType priority
              (cards.filter (fun c => c.column_name == columnId)).length).patient_id
          && c.board_id == (mkCard boardId nextId patientId columnId surgeryType priority
              (cards.filter (fun c => c.column_name == columnId)).length).board_id) = true
    · rw [if_pos hdup] at hok
      cases hok
    · rw [if_neg hdup] at hok
      cases hok
      rfl
  · intro hempty hfresh hnodup
    rw [addPatientsSeq_filter boardId columnId priority ps cards hfresh hnodup,
      hempty, List.nil_append, List.length_nil,
      expectedCards_pairs boardId columnId priority ps 0, List.range_eq_range']

/-- Witness for `addCard_append_positions`: three fresh patients added to
the empty `waiting` column of board 1 land at positions 0, 1, 2. -/
theorem addCard_append_positions_witness :
    ((addPatientsSeq 1 "waiting" "normal" []
        [(5, 100), (6, 101), (7, 102)]).filter
        (fun c => c.column_name == "waiting")).map
          (fun c => (c.patient_id, c.position))
      = [(5, 0), (6, 1), (7, 2)] := by
  rw [(addCard_append_positions [] 1 0 0 "waiting" none "normal"
    [(5, 100), (6, 101), (7, 102)]).2 rfl (by decide) (by decide)]
  decide

/-! ## Theorems: filtered column view -/

/-- C9: the column view returns exactly (as a multiset) the cards of the
requested column that pass the filter predicate, in ascending `position`
order; the cards themselves are the untouched stored records (no position
is mutated); and whenever either end of the date range is set, every
returned card carries a `scheduled_date`. -/
theorem getCardsForColumn_spec (cards : List KanbanCard) (columnId : String)
    (filters : BoardFilters) :
    (getCardsForColumn cards columnId filters).Perm
        ((cards.filter (fun c => c.column_name == columnId)).filter
          (matchesFilters filters))
    ∧ List.Sorted (fun a b : KanbanCard => a.position ≤ b.position)
        (getCardsForColumn cards columnId filters)
    ∧ ((filters.dateFrom ≠ none ∨ filters.dateTo ≠ none) →
        ∀ c ∈ getCardsForColumn cards columnId filters,
          c.scheduled_date ≠ none) := by
  refine ⟨?_, ?_, ?_⟩
  · exact List.Perm.filter _ (List.mergeSort_perm _ _)
  · have htrans : ∀ a b c : KanbanCard,
        decide (a.position ≤ b.position) = true →
        decide (b.position ≤ c.position) = true →
        decide (a.position ≤ c.position) = true := by
      intro a b c hab hbc
      simp only [decide_eq_true_eq] at hab hbc ⊢
      omega
    have htotal : ∀ a b : KanbanCard,
        (decide (a.position ≤ b.position) || decide (b.position ≤ a.position)) = true := by
      intro a b
      simpa using Nat.le_total a.position b.position
    have h := List.sorted_mergeSort htrans htotal
      (cards.filter (fun c => c.column_name == columnId))
    exact List.Sorted.filter _ (h.imp (fun hab => by simpa using hab))
  · intro hdate c hc
    have hmatch : matchesFilters filters c = true :=
      (List.mem_filter.mp hc).2
    intro hsched
    rw [matchesFilters, hsched] at hmatch
    simp only [Bool.and_eq_true, beq_iff_eq] at hmatch
    rcases hdate with hdate | hdate
    · exact hdate hmatch.2.1
    · exact hdate hmatch.2.2

/-- Card dated January 1 (day 1 of the year, as a numeric timestamp). -/
def cardJan : KanbanCard :=
  { id := 70, board_id := 1, patient_id := 31, column_name := "waiting",
    position := 0, priority := "normal", scheduled_date := some 1,
    surgery_type := none, notes := none, manual_override := false,
    patient := none }

/-- Card dated February 1 (day 32). -/
def cardFeb : KanbanCard :=
  { id := 71, board_id := 1, patient_id := 32, column_name := "waiting",
    position := 1, priority := "normal", scheduled_date := some 32,
    surgery_type := none, notes := none, manual_override := false,
    patient := none }

/-- Card with no scheduled date. -/
def cardUndated : KanbanCard :=
  { id := 72, board_id := 1, patient_id := 33, column_name := "waiting",
    position := 2, priority := "normal", scheduled_date := none,
    surgery_type := none, notes := none, manual_override := false,
    patient := none }

/-- Filter bundle with only `dateFrom` set (to January 15, day 15). -/
def exampleFilters : BoardFilters :=
  { search := none, urgency := "all", dateFrom := some 15, dateTo := none }

/-- Witness for `getCardsForColumn_spec`: with `dateFrom` set, the view of
the example column is exactly the February card, and every returned card
carries a date. -/
theorem getCardsForColumn_spec_witness :
    getCardsForColumn [cardJan, cardFeb, cardUndated] "waiting" exampleFilters
        = [cardFeb]
    ∧ ∀ c ∈ getCardsForColumn [cardJan, cardFeb, cardUndated] "waiting"
          exampleFilters, c.scheduled_date ≠ none :=
  ⟨by simp [getCardsForColumn, List.mergeSort, cardJan, cardFeb, cardUndated,
      exampleFilters, matchesFilters],
   (getCardsForColumn_spec [cardJan, cardFeb, cardUndated] "waiting"
     exampleFilters).2.2 (Or.inl (by simp [exampleFilters]))⟩

/-! ## Checklist stored in a card's notes (`PatientCardDialog.tsx`)

The dialog reads `JSON.parse(card.notes)` inside a try/catch defaulting to
the empty array (lines 194-202) and writes `JSON.stringify(items)` back
into `notes` (lines 237-244).  `JSON.parse` and `JSON.stringify` are
modelled below on a JSON value type; the model covers strings (with the
escape sequences of the JSON grammar), booleans, null, arrays, objects and
integer numerals.  Numerals with fraction or exponent parts and lone
surrogate escapes are left out of the model (they never occur in a
serialized checklist); this only restricts which strings the model
classifies as parseable. -/

/-- A checklist item as created by the dialog (lines 86-90 and 304-312):
`id` is `Date.now().toString()`, `text` the user's entry. -/
structure ChecklistItem where
  id : String
  text : String
  completed : Bool
  deriving DecidableEq

/-- A JSON value as produced by `JSON.parse`; object fields keep their
textual order, as JavaScript objects keep insertion order. -/
inductive Json where
  | null
  | bool (b : Bool)
  | num (n : Int)
  | str (s : String)
  | arr (elems : List Json)
  | obj (fields : List (String × Json))

/-- The double-quote character. -/
def quoteChar : Char := Char.ofNat 34

/-- The backslash character. -/
def bslashChar : Char := Char.ofNat 92

/-- The opening curly bracket. -/
def lbraceChar : Char := Char.ofNat 123

/-- The closing curly bracket. -/
def rbraceChar : Char := Char.ofNat 125

/-- Lower-case hexadecimal digit for `n < 16`, as emitted by
`JSON.stringify`'s control-character escapes. -/
def hexDigitChar (n : Nat) : Char :=
  if n < 10 then Char.ofNat (48 + n) else Char.ofNat (87 + n)

/-- Escape of one character inside a JSON string, per `JSON.stringify`:
quote and backslash get a backslash, the named control characters get
their short escapes, other control characters get `\u00XX`, everything
else is copied. -/
def escChar (c : Char) : List Char :=
  if c = quoteChar then [bslashChar, quoteChar]
  else if c = bslashChar then [bslashChar, bslashChar]
  else if c = Char.ofNat 8 then [bslashChar, 'b']
  else if c = Char.ofNat 9 then [bslashChar, 't']
  else if c = Char.ofNat 10 then [bslashChar, 'n']
  else if c = Char.ofNat 12 then [bslashChar, 'f']
  else if c = Char.ofNat 13 then [bslashChar, 'r']
  else if c.toNat < 32 then
    [bslashChar, 'u', '0', '0', hexDigitChar (c.toNat / 16), hexDigitChar (c.toNat % 16)]
  else [c]

/-- Escapes of a character list. -/
def escChars : List Char → List Char
  | [] => []
  | c :: cs => escChar c ++ escChars cs

/-- Serialized JSON string literal. -/
def emitString (s : String) : List Char :=
  quoteChar :: (escChars s.data ++ [quoteChar])

/-- Serialized JSON boolean. -/
def emitBool : Bool → List Char
  | true => ['t', 'r', 'u', 'e']
  | false => ['f', 'a', 'l', 's', 'e']

/-- Serialization of one checklist item, exactly as `JSON.stringify`
renders the object `Nat` — keys in insertion order `id`, `text`,
`completed`, no whitespace. -/
def emitItem (it : ChecklistItem) : List Char :=
  lbraceChar :: (emitString "id" ++ ':' :: emitString it.id
    ++ ',' :: emitString "text" ++ ':' :: emitString it.text
    ++ ',' :: emitString "completed" ++ ':' :: emitBool it.completed
    ++ [rbraceChar])

/-- Tail of the serialized array after its first element. -/
def emitItemsTail : List ChecklistItem → List Char
  | [] => [']']
  | it :: rest => ',' :: (emitItem it ++ emitItemsTail rest)

/-- Serialization of the checklist array. -/
def emitItems : List ChecklistItem → List Char
  | [] => ['[', ']']
  | it :: rest => '[' :: (emitItem it ++ emitItemsTail rest)

/-- The string written to the card's `notes` by the checklist mutation:
`JSON.stringify(items)`. -/
def serializeChecklist (items : List ChecklistItem) : String :=
  ⟨emitItems items⟩

/-- JSON value of one checklist item. -/
def itemJson (it : ChecklistItem) : Json :=
  Json.obj [("id", Json.str it.id), ("text", Json.str it.text),
    ("completed", Json.bool it.completed)]

/-- JSON value of a checklist. -/
def checklistToJson (items : List ChecklistItem) : Json :=
  Json.arr (items.map itemJson)

/-- JSON whitespace. -/
def jsonWs (c : Char) : Bool :=
  c == ' ' || c == Char.ofNat 9 || c == Char.ofNat 10 || c == Char.ofNat 13

/-- Skip leading JSON whitespace. -/
def skipWs (cs : List Char) : List Char :=
  cs.dropWhile jsonWs

/-- Value of one hexadecimal digit. -/
def hexVal (c : Char) : Option Nat :=
  let n := c.toNat
  if 48 ≤ n ∧ n ≤ 57 then some (n - 48)
  else if 97 ≤ n ∧ n ≤ 102 then some (n - 87)
  else if 65 ≤ n ∧ n ≤ 70 then some (n - 55)
  else none

/-- Value of one decimal digit. -/
def digitVal (c : Char) : Option Nat :=
  let n := c.toNat
  if 48 ≤ n ∧ n ≤ 57 then some (n - 48) else none

/-- Longest leading run of decimal digits. -/
def takeDigits : List Char → List Nat × List Char
  | [] => ([], [])
  | c :: rest =>
    match digitVal c with
    | some d =>
      let p := takeDigits rest
      (d :: p.1, p.2)
    | none => ([], c :: rest)

/-- Decimal value of a digit run. -/
def digitsToNat (ds : List Nat) : Nat :=
  ds.foldl (fun acc d => acc * 10 + d) 0

/-- Integer numeral parser (optional minus sign, decimal digits). -/
def parseNum (cs : List Char) : Option (Json × List Char) :=
  match cs with
  | [] => none
  | c :: rest =>
    if c = '-' then
      match takeDigits rest with
      | ([], _) => none
      | (ds, r) => some (Json.num (-(digitsToNat ds : Int)), r)
    else
      match takeDigits (c :: rest) with
      | ([], _) => none
      | (ds, r) => some (Json.num (digitsToNat ds), r)


/-- Decode of a `\uXXXX` escape: four hexadecimal digits naming a Unicode
scalar value (surrogate halves are not modelled). -/
def parseUEscape (r2 : List Char) : Option (Char × List Char) :=
  match r2 with
  | h1 :: h2 :: h3 :: h4 :: r3 =>
    match hexVal h1, hexVal h2, hexVal h3, hexVal h4 with
    | some a, some b, some c2, some d =>
      let n := ((a * 16 + b) * 16 + c2) * 16 + d
      if n < 55296 ∨ (57343 < n ∧ n < 1114112) then some (Char.ofNat n, r3)
      else none
    | _, _, _, _ => none
  | _ => none

/-- Body of a JSON string literal after the opening quote: plain
characters, short escapes, and `\uXXXX` scalar escapes, up to the closing
quote.  Fuel-indexed; every step consumes at least one character, so fuel
exceeding the input length never runs out. -/
def parseStringBody : Nat → List Char → Option (List Char × List Char)
  | 0, _ => none
  | _ + 1, [] => none
  | fuel + 1, c :: rest =>
    if c = quoteChar then some ([], rest)
    else if c = bslashChar then
      match rest with
      | [] => none
      | e :: r2 =>
        if e = quoteChar then
          (parseStringBody fuel r2).map (fun p => (quoteChar :: p.1, p.2))
        else if e = bslashChar then
          (parseStringBody fuel r2).map (fun p => (bslashChar :: p.1, p.2))
        else if e = '/' then
          (parseStringBody fuel r2).map (fun p => ('/' :: p.1, p.2))
        else if e = 'b' then
          (parseStringBody fuel r2).map (fun p => (Char.ofNat 8 :: p.1, p.2))
        else if e = 'f' then
          (parseStringBody fuel r2).map (fun p => (Char.ofNat 12 :: p.1, p.2))
        else if e = 'n' then
          (parseStringBody fuel r2).map (fun p => (Char.ofNat 10 :: p.1, p.2))
        else if e = 'r' then
          (parseStringBody fuel r2).map (fun p => (Char.ofNat 13 :: p.1, p.2))
        else if e = 't' then
          (parseStringBody fuel r2).map (fun p => (Char.ofNat 9 :: p.1, p.2))
        else if e = 'u' then
          match parseUEscape r2 with
          | some (out, r3) =>
            (parseStringBody fuel r3).map (fun p => (out :: p.1, p.2))
          | none => none
        else none
    else if c.toNat < 32 then none
    else (parseStringBody fuel rest).map (fun p => (c :: p.1, p.2))

/-- String-literal body parser with always-sufficient fuel. -/
def parseStr (cs : List Char) : Option (List Char × List Char) :=
  parseStringBody (cs.length + 1) cs

mutual

/-- JSON value parser, fuel-indexed (the fuel strictly decreases into
every nested value, and the top level supplies more fuel than the input
length).  Dispatch follows the first non-blank character, as `JSON.parse`
does. -/
def parseVal : Nat → List Char → Option (Json × List Char)
  | 0, _ => none
  | fuel + 1, cs =>
    match skipWs cs with
    | [] => none
    | c :: rest =>
      if c = quoteChar then
        match parseStr rest with
        | some (s, r) => some (Json.str ⟨s⟩, r)
        | none => none
      else if c = '[' then parseArrRest fuel rest
      else if c = lbraceChar then parseObjRest fuel rest
      else if c = 't' then
        match rest with
        | 'r' :: 'u' :: 'e' :: r => some (Json.bool true, r)
        | _ => none
      else if c = 'f' then
        match rest with
        | 'a' :: 'l' :: 's' :: 'e' :: r => some (Json.bool false, r)
        | _ => none
      else if c = 'n' then
        match rest with
        | 'u' :: 'l' :: 'l' :: r => some (Json.null, r)
        | _ => none
      else parseNum (c :: rest)

/-- Array parser after the opening bracket: empty array or first element
then tail loop. -/
def parseArrRest : Nat → List Char → Option (Json × List Char)
  | 0, _ => none
  | fuel + 1, cs =>
    match skipWs cs with
    | [] => none
    | c :: rest =>
      if c = ']' then some (Json.arr [], rest)
      else
        match parseVal fuel (c :: rest) with
        | some (v, r) => parseArrTail fuel [v] r
        | none => none

/-- Array tail loop: comma and next element, or closing bracket. -/
def parseArrTail : Nat → List Json → List Char → Option (Json × List Char)
  | 0, _, _ => none
  | fuel + 1, acc, cs =>
    match skipWs cs with
    | [] => none
    | c :: rest =>
      if c = ',' then
        match parseVal fuel rest with
        | some (v, r) => parseArrTail fuel (acc ++ [v]) r
        | none => none
      else if c = ']' then some (Json.arr acc, rest)
      else none

/-- Object parser after the opening brace: empty object or first
key/value pair then tail loop. -/
def parseObjRest : Nat → List Char → Option (Json × List Char)
  | 0, _ => none
  | fuel + 1, cs =>
    match skipWs cs with
    | [] => none
    | c :: rest =>
      if c = rbraceChar then some (Json.obj [], rest)
      else if c = quoteChar then
        match parseStr rest with
        | some (k, r1) =>
          match skipWs r1 with
          | c2 :: r2 =>
            if c2 = ':' then
              match parseVal fuel r2 with
              | some (v, r3) => parseObjTail fuel [(⟨k⟩, v)] r3
              | none => none
            else none
          | [] => none
        | none => none
      else none

/-- Object tail loop: comma and next key/value pair, or closing brace. -/
def parseObjTail : Nat → List (String × Json) → List Char → Option (Json × List Char)
  | 0, _, _ => none
  | fuel + 1, acc, cs =>
    match skipWs cs with
    | [] => none
    | c :: rest =>
      if c = ',' then
        match skipWs rest with
        | c2 :: r2 =>
          if c2 = quoteChar then
            match parseStr r2 with
            | some (k, r3) =>
              match skipWs r3 with
              | c3 :: r4 =>
                if c3 = ':' then
                  match parseVal fuel r4 with
                  | some (v, r5) => parseObjTail fuel (acc ++ [(⟨k⟩, v)]) r5
                  | none => none
                else none
              | [] => none
            | none => none
          else none
        | [] => none
      else if c = rbraceChar then some (Json.obj acc, rest)
      else none

end

/-- Model of `JSON.parse`: parse one value with ample fuel and require
only trailing whitespace; any other outcome is a `SyntaxError`, modelled
as `none`. -/
def parseJson (s : String) : Option Json :=
  match parseVal (s.length + 1) s.data with
  | some (v, rest) => if skipWs rest = [] then some v else none
  | none => none

/-- The checklist value read from a card's `notes`
(PatientCardDialog lines 194-202): absent notes give the empty array, a
parse failure is caught and gives the empty array, otherwise the parsed
value is used as-is (the source performs no shape validation). -/
def checklistOfNotes : Option String → Json
  | none => Json.arr []
  | some s =>
    match parseJson s with
    | some v => v
    | none => Json.arr []

/-! ## Round-trip lemmas for the checklist serialization -/

/-- Skipping whitespace leaves a list alone when its head is not blank. -/
theorem skipWs_cons (c : Char) (cs : List Char) (h : jsonWs c = false) :
    skipWs (c :: cs) = c :: cs := by
  simp [skipWs, List.dropWhile_cons, h]

/-- Hexadecimal digits decode back to their value. -/
theorem hexVal_hexDigitChar : ∀ n, n < 16 → hexVal (hexDigitChar n) = some n := by
  decide

/-- Escape of the quote character. -/
theorem escChar_quote : escChar quoteChar = [bslashChar, quoteChar] := by decide

/-- Escape of the backslash character. -/
theorem escChar_bslash : escChar bslashChar = [bslashChar, bslashChar] := by decide

/-- Escape of backspace. -/
theorem escChar_bs : escChar (Char.ofNat 8) = [bslashChar, 'b'] := by decide

/-- Escape of tab. -/
theorem escChar_tab : escChar (Char.ofNat 9) = [bslashChar, 't'] := by decide

/-- Escape of newline. -/
theorem escChar_nl : escChar (Char.ofNat 10) = [bslashChar, 'n'] := by decide

/-- Escape of form feed. -/
theorem escChar_ff : escChar (Char.ofNat 12) = [bslashChar, 'f'] := by decide

/-- Escape of carriage return. -/
theorem escChar_cr : escChar (Char.ofNat 13) = [bslashChar, 'r'] := by decide

/-- Escape of the remaining control characters. -/
theorem escChar_ctrl (c : Char) (h1 : c ≠ quoteChar) (h2 : c ≠ bslashChar)
    (h3 : c ≠ Char.ofNat 8) (h4 : c ≠ Char.ofNat 9) (h5 : c ≠ Char.ofNat 10)
    (h6 : c ≠ Char.ofNat 12) (h7 : c ≠ Char.ofNat 13) (h8 : c.toNat < 32) :
    escChar c = [bslashChar, 'u', '0', '0',
      hexDigitChar (c.toNat / 16), hexDigitChar (c.toNat % 16)] := by
  simp [escChar, h1, h2, h3, h4, h5, h6, h7, h8]

/-- Escape of an ordinary character. -/
theorem escChar_plain (c : Char) (h1 : c ≠ quoteChar) (h2 : c ≠ bslashChar)
    (h8 : ¬ c.toNat < 32) : escChar c = [c] := by
  have hne : ∀ k : Nat, (Char.ofNat k).toNat < 32 → c ≠ Char.ofNat k :=
    fun k hk he => h8 (he ▸ hk)
  simp [escChar, h1, h2, h8, hne 8 (by decide), hne 9 (by decide),
    hne 10 (by decide), hne 12 (by decide), hne 13 (by decide)]

/-- Every character escape is nonempty. -/
theorem escChar_length_pos (c : Char) : 0 < (escChar c).length := by
  by_cases h1 : c = quoteChar
  · subst h1; rw [escChar_quote]; simp
  · by_cases h2 : c = bslashChar
    · subst h2; rw [escChar_bslash]; simp
    · by_cases h3 : c = Char.ofNat 8
      · subst h3; rw [escChar_bs]; simp
      · by_cases h4 : c = Char.ofNat 9
        · subst h4; rw [escChar_tab]; simp
        · by_cases h5 : c = Char.ofNat 10
          · subst h5; rw [escChar_nl]; simp
          · by_cases h6 : c = Char.ofNat 12
            · subst h6; rw [escChar_ff]; simp
            · by_cases h7 : c = Char.ofNat 13
              · subst h7; rw [escChar_cr]; simp
              · by_cases h8 : c.toNat < 32
                · rw [escChar_ctrl c h1 h2 h3 h4 h5 h6 h7 h8]; simp
                · rw [escChar_plain c h1 h2 h8]; simp

/-- Escaping cannot shorten a string. -/
theorem escChars_length (s : List Char) : s.length ≤ (escChars s).length := by
  induction s with
  | nil => simp [escChars]
  | cons c cs ih =>
    rw [escChars, List.length_append, List.length_cons]
    have := escChar_length_pos c
    omega

/-- Decode of the `\u00XX` escape of a control character. -/
theorem parseUEscape_ctrl (c : Char) (X : List Char) (h : c.toNat < 32) :
    parseUEscape ('0' :: '0' :: hexDigitChar (c.toNat / 16)
        :: hexDigitChar (c.toNat % 16) :: X)
      = some (c, X) := by
  have hhi := hexVal_hexDigitChar (c.toNat / 16) (by omega)
  have hlo := hexVal_hexDigitChar (c.toNat % 16) (by omega)
  have h0 : hexVal '0' = some 0 := by decide
  simp only [parseUEscape, h0, hhi, hlo]
  have hn2 : c.toNat / 16 * 16 + c.toNat % 16 = c.toNat := by omega
  simp only [Nat.zero_mul, Nat.mul_zero, Nat.zero_add, Nat.add_zero, hn2]
  rw [if_pos (Or.inl (by omega))]
  rw [Char.ofNat_toNat]

/-- String-body parser at a closing quote. -/
theorem psb_quote (fuel : Nat) (X : List Char) :
    parseStringBody (fuel + 1) (quoteChar :: X) = some ([], X) := by
  rw [parseStringBody.eq_def]
  simp

/-- String-body parser at a plain character. -/
theorem psb_plain (fuel : Nat) (c : Char) (X : List Char) (h1 : c ≠ quoteChar)
    (h2 : c ≠ bslashChar) (h3 : ¬ c.toNat < 32) :
    parseStringBody (fuel + 1) (c :: X)
      = (parseStringBody fuel X).map (fun p => (c :: p.1, p.2)) := by
  rw [parseStringBody.eq_def]
  simp [h1, h2, h3]

/-- String-body parser at an escaped quote. -/
theorem psb_esc_quote (fuel : Nat) (X : List Char) :
    parseStringBody (fuel + 1) (bslashChar :: quoteChar :: X)
      = (parseStringBody fuel X).map (fun p => (quoteChar :: p.1, p.2)) := by
  rw [parseStringBody.eq_def]
  simp [quoteChar, bslashChar]

/-- String-body parser at an escaped backslash. -/
theorem psb_esc_bslash (fuel : Nat) (X : List Char) :
    parseStringBody (fuel + 1) (bslashChar :: bslashChar :: X)
      = (parseStringBody fuel X).map (fun p => (bslashChar :: p.1, p.2)) := by
  rw [parseStringBody.eq_def]
  simp [quoteChar, bslashChar]

/-- String-body parser at an escaped backspace. -/
theorem psb_esc_bs (fuel : Nat) (X : List Char) :
    parseStringBody (fuel + 1) (bslashChar :: 'b' :: X)
      = (parseStringBody fuel X).map (fun p => (Char.ofNat 8 :: p.1, p.2)) := by
  rw [parseStringBody.eq_def]
  simp [quoteChar, bslashChar]

/-- String-body parser at an escaped tab. -/
theorem psb_esc_tab (fuel : Nat) (X : List Char) :
    parseStringBody (fuel + 1) (bslashChar :: 't' :: X)
      = (parseStringBody fuel X).map (fun p => (Char.ofNat 9 :: p.1, p.2)) := by
  rw [parseStringBody.eq_def]
  simp [quoteChar, bslashChar]

/-- String-body parser at an escaped newline. -/
theorem psb_esc_nl (fuel : Nat) (X : List Char) :
    parseStringBody (fuel + 1) (bslashChar :: 'n' :: X)
      = (parseStringBody fuel X).map (fun p => (Char.ofNat 10 :: p.1, p.2)) := by
  rw [parseStringBody.eq_def]
  simp [quoteChar, bslashChar]

/-- String-body parser at an escaped form feed. -/
theorem psb_esc_ff (fuel : Nat) (X : List Char) :
    parseStringBody (fuel + 1) (bslashChar :: 'f' :: X)
      = (parseStringBody fuel X).map (fun p => (Char.ofNat 12 :: p.1, p.2)) := by
  rw [parseStringBody.eq_def]
  simp [quoteChar, bslashChar]

/-- String-body parser at an escaped carriage return. -/
theorem psb_esc_cr (fuel : Nat) (X : List Char) :
    parseStringBody (fuel + 1) (bslashChar :: 'r' :: X)
      = (parseStringBody fuel X).map (fun p => (Char.ofNat 13 :: p.1, p.2)) := by
  rw [parseStringBody.eq_def]
  simp [quoteChar, bslashChar]

/-- String-body parser at a `\u00XX` control escape. -/
theorem psb_esc_u (fuel : Nat) (c : Char) (X : List Char) (h : c.toNat < 32) :
    parseStringBody (fuel + 1) (bslashChar :: 'u' :: '0' :: '0'
        :: hexDigitChar (c.toNat / 16) :: hexDigitChar (c.toNat % 16) :: X)
      = (parseStringBody fuel X).map (fun p => (c :: p.1, p.2)) := by
  rw [parseStringBody.eq_def]
  simp [quoteChar, bslashChar, parseUEscape_ctrl c X h]

/-- The string-body parser inverts the character escaper, given fuel
beyond the source length. -/
theorem psb_escChars (s : List Char) :
    ∀ (rest : List Char) (fuel : Nat), s.length < fuel →
      parseStringBody fuel (escChars s ++ (quoteChar :: rest)) = some (s, rest) := by
  induction s with
  | nil =>
    intro rest fuel h
    obtain ⟨f, rfl⟩ : ∃ f, fuel = f + 1 := ⟨fuel - 1, by omega⟩
    rw [escChars, List.nil_append]
    exact psb_quote f rest
  | cons c cs ih =>
    intro rest fuel h
    obtain ⟨f, rfl⟩ : ∃ f, fuel = f + 1 := ⟨fuel - 1, by omega⟩
    have hf : cs.length < f := by
      simp only [List.length_cons] at h
      omega
    rw [escChars, List.append_assoc]
    by_cases h1 : c = quoteChar
    · subst h1
      rw [escChar_quote]
      simp only [List.cons_append, List.nil_append]
      rw [psb_esc_quote, ih rest f hf]
      rfl
    · by_cases h2 : c = bslashChar
      · subst h2
        rw [escChar_bslash]
        simp only [List.cons_append, List.nil_append]
        rw [psb_esc_bslash, ih rest f hf]
        rfl
      · by_cases h3 : c = Char.ofNat 8
        · subst h3
          rw [escChar_bs]
          simp only [List.cons_append, List.nil_append]
          rw [psb_esc_bs, ih rest f hf]
          rfl
        · by_cases h4 : c = Char.ofNat 9
          · subst h4
            rw [escChar_tab]
            simp only [List.cons_append, List.nil_append]
            rw [psb_esc_tab, ih rest f hf]
            rfl
          · by_cases h5 : c = Char.ofNat 10
            · subst h5
              rw [escChar_nl]
              simp only [List.cons_append, List.nil_append]
              rw [psb_esc_nl, ih rest f hf]
              rfl
            · by_cases h6 : c = Char.ofNat 12
              · subst h6
                rw [escChar_ff]
                simp only [List.cons_append, List.nil_append]
                rw [psb_esc_ff, ih rest f hf]
                rfl
              · by_cases h7 : c = Char.ofNat 13
                · subst h7
                  rw [escChar_cr]
                  simp only [List.cons_append, List.nil_append]
                  rw [psb_esc_cr, ih rest f hf]
                  rfl
                · by_cases h8 : c.toNat < 32
                  · rw [escChar_ctrl c h1 h2 h3 h4 h5 h6 h7 h8]
                    simp only [List.cons_append, List.nil_append]
                    rw [psb_esc_u f c _ h8, ih rest f hf]
                    rfl
                  · rw [escChar_plain c h1 h2 h8]
                    simp only [List.cons_append, List.nil_append]
                    rw [psb_plain f c _ h1 h2 h8, ih rest f hf]
                    rfl

/-- The always-sufficient-fuel string parser inverts the escaper. -/
theorem parseStr_escChars (s rest : List Char) :
    parseStr (escChars s ++ (quoteChar :: rest)) = some (s, rest) := by
  apply psb_escChars
  have := escChars_length s
  simp only [List.length_append, List.length_cons]
  omega

/-- Value parser at a serialized string literal. -/
theorem parseVal_emitString (fuel : Nat) (s : String) (rest : List Char) :
    parseVal (fuel + 1) (emitString s ++ rest) = some (Json.str s, rest) := by
  rw [emitString]
  simp only [List.cons_append, List.append_assoc, List.singleton_append]
  rw [parseVal.eq_def]
  simp +decide [skipWs, List.dropWhile_cons, parseStr_escChars]

/-- Value parser at a serialized boolean. -/
theorem parseVal_emitBool (fuel : Nat) (b : Bool) (rest : List Char) :
    parseVal (fuel + 1) (emitBool b ++ rest) = some (Json.bool b, rest) := by
  cases b <;>
    · rw [emitBool]
      simp only [List.cons_append, List.nil_append]
      rw [parseVal.eq_def]
      simp +decide [skipWs, List.dropWhile_cons]

/-- Value parser at one serialized checklist item. -/
theorem parseVal_emitItem (fuel : Nat) (it : ChecklistItem) (rest : List Char) :
    parseVal (fuel + 6) (emitItem it ++ rest) = some (itemJson it, rest) := by
  have hkid : ∀ X : List Char,
      parseStr ('i' :: 'd' :: quoteChar :: X) = some (['i', 'd'], X) := by
    intro X
    have h := parseStr_escChars ['i', 'd'] X
    rw [show escChars ['i', 'd'] = ['i', 'd'] from by decide] at h
    simpa using h
  have hktext : ∀ X : List Char,
      parseStr ('t' :: 'e' :: 'x' :: 't' :: quoteChar :: X)
        = some (['t', 'e', 'x', 't'], X) := by
    intro X
    have h := parseStr_escChars ['t', 'e', 'x', 't'] X
    rw [show escChars ['t', 'e', 'x', 't'] = ['t', 'e', 'x', 't'] from by decide] at h
    simpa using h
  have hkcomp : ∀ X : List Char,
      parseStr ('c' :: 'o' :: 'm' :: 'p' :: 'l' :: 'e' :: 't' :: 'e' :: 'd'
          :: quoteChar :: X)
        = some (['c', 'o', 'm', 'p', 'l', 'e', 't', 'e', 'd'], X) := by
    intro X
    have h := parseStr_escChars ['c', 'o', 'm', 'p', 'l', 'e', 't', 'e', 'd'] X
    rw [show escChars ['c', 'o', 'm', 'p', 'l', 'e', 't', 'e', 'd']
        = ['c', 'o', 'm', 'p', 'l', 'e', 't', 'e', 'd'] from by decide] at h
    simpa using h
  have hvid : ∀ X : List Char,
      parseVal (fuel + 4) (emitString it.id ++ X) = some (Json.str it.id, X) :=
    fun X => parseVal_emitString (fuel + 3) it.id X
  have hvtext : ∀ X : List Char,
      parseVal (fuel + 3) (emitString it.text ++ X) = some (Json.str it.text, X) :=
    fun X => parseVal_emitString (fuel + 2) it.text X
  have hvbool : ∀ X : List Char,
      parseVal (fuel + 2) (emitBool it.completed ++ X)
        = some (Json.bool it.completed, X) :=
    fun X => parseVal_emitBool (fuel + 1) it.completed X
  rw [emitItem]
  rw [show emitString "id" = [quoteChar, 'i', 'd', quoteChar] from by decide]
  rw [show emitString "text" = [quoteChar, 't', 'e', 'x', 't', quoteChar] from by decide]
  rw [show emitString "completed"
      = [quoteChar, 'c', 'o', 'm', 'p', 'l', 'e', 't', 'e', 'd', quoteChar] from by decide]
  simp only [List.cons_append, List.append_assoc, List.nil_append,
    List.singleton_append]
  rw [show fuel + 6 = (fuel + 5) + 1 from rfl, parseVal.eq_def]
  simp +decide [skipWs, List.dropWhile_cons]
  rw [show fuel + 5 = (fuel + 4) + 1 from rfl, parseObjRest.eq_def]
  simp +decide [skipWs, List.dropWhile_cons, hkid, hvid]
  rw [show fuel + 4 = (fuel + 3) + 1 from rfl, parseObjTail.eq_def]
  simp +decide [skipWs, List.dropWhile_cons, hktext, hvtext]
  rw [show fuel + 3 = (fuel + 2) + 1 from rfl, parseObjTail.eq_def]
  simp +decide [skipWs, List.dropWhile_cons, hkcomp, hvbool]
  rw [show fuel + 2 = (fuel + 1) + 1 from rfl, parseObjTail.eq_def]
  simp +decide [skipWs, List.dropWhile_cons, itemJson]

/-- Array-tail parser over the serialized checklist tail. -/
theorem parseArrTail_emitItemsTail (items : List ChecklistItem) :
    ∀ (fuel : Nat) (acc : List Json) (rest : List Char),
      parseArrTail (fuel + 7 + items.length) acc (emitItemsTail items ++ rest)
        = some (Json.arr (acc ++ items.map itemJson), rest) := by
  induction items with
  | nil =>
    intro fuel acc rest
    rw [emitItemsTail]
    simp only [List.cons_append, List.nil_append, List.length_nil, Nat.add_zero,
      List.map_nil, List.append_nil]
    rw [show fuel + 7 = (fuel + 6) + 1 from rfl, parseArrTail.eq_def]
    simp +decide [skipWs, List.dropWhile_cons]
  | cons it its ih =>
    intro fuel acc rest
    rw [emitItemsTail]
    simp only [List.cons_append, List.append_assoc, List.length_cons]
    have h1 : fuel + 7 + (its.length + 1) = (fuel + 7 + its.length) + 1 := by omega
    rw [h1, parseArrTail.eq_def]
    simp +decide [skipWs, List.dropWhile_cons]
    have hv : parseVal (fuel + 7 + its.length)
        (emitItem it ++ (emitItemsTail its ++ rest))
        = some (itemJson it, emitItemsTail its ++ rest) := by
      have h2 : fuel + 7 + its.length = (fuel + 1 + its.length) + 6 := by omega
      rw [h2]
      exact parseVal_emitItem (fuel + 1 + its.length) it _
    rw [hv]
    have h3 := ih fuel (acc ++ [itemJson it]) rest
    simp [h3]

/-- Value parser over the full serialized checklist. -/
theorem parseVal_emitItems (items : List ChecklistItem) (fuel : Nat)
    (rest : List Char) :
    parseVal (fuel + 9 + items.length) (emitItems items ++ rest)
      = some (checklistToJson items, rest) := by
  cases items with
  | nil =>
    rw [emitItems]
    simp only [List.cons_append, List.nil_append, List.length_nil, Nat.add_zero]
    rw [show fuel + 9 = (fuel + 8) + 1 from rfl, parseVal.eq_def]
    simp +decide [skipWs, List.dropWhile_cons]
    rw [show fuel + 8 = (fuel + 7) + 1 from rfl, parseArrRest.eq_def]
    simp +decide [skipWs, List.dropWhile_cons, checklistToJson]
  | cons it its =>
    rw [emitItems]
    simp only [List.cons_append, List.append_assoc, List.length_cons]
    have h1 : fuel + 9 + (its.length + 1) = (fuel + 9 + its.length) + 1 := by omega
    rw [h1, parseVal.eq_def]
    simp +decide [skipWs, List.dropWhile_cons]
    have h2 : fuel + 9 + its.length = (fuel + 8 + its.length) + 1 := by omega
    rw [h2, parseArrRest.eq_def]
    have hv : parseVal (fuel + 8 + its.length)
        (emitItem it ++ (emitItemsTail its ++ rest))
        = some (itemJson it, emitItemsTail its ++ rest) := by
      have h3 : fuel + 8 + its.length = (fuel + 2 + its.length) + 6 := by omega
      rw [h3]
      exact parseVal_emitItem (fuel + 2 + its.length) it _
    obtain ⟨tl, htl⟩ : ∃ tl, emitItem it = lbraceChar :: tl := ⟨_, rfl⟩
    rw [htl] at hv ⊢
    simp only [List.cons_append] at hv ⊢
    simp +decide [skipWs, List.dropWhile_cons]
    rw [hv]
    have h4 : fuel + 8 + its.length = (fuel + 1) + 7 + its.length := by omega
    rw [h4]
    simp [parseArrTail_emitItemsTail its (fuel + 1) [itemJson it] rest,
      checklistToJson]

/-- Serialized strings take at least two characters. -/
theorem emitString_length (s : String) : 2 ≤ (emitString s).length := by
  rw [emitString]
  simp only [List.length_cons, List.length_append, List.length_singleton]
  omega

/-- Serialized items take at least ten characters. -/
theorem emitItem_length (it : ChecklistItem) : 10 ≤ (emitItem it).length := by
  have h1 := emitString_length "id"
  have h2 := emitString_length it.id
  have h3 := emitString_length "text"
  have h4 := emitString_length it.text
  have h5 := emitString_length "completed"
  have h6 : 4 ≤ (emitBool it.completed).length := by
    cases it.completed <;> simp [emitBool]
  rw [emitItem]
  simp only [List.length_cons, List.length_append, List.length_singleton]
  omega

/-- The serialized array tail is longer than the item count. -/
theorem emitItemsTail_length (items : List ChecklistItem) :
    items.length + 1 ≤ (emitItemsTail items).length := by
  induction items with
  | nil => simp [emitItemsTail]
  | cons it its ih =>
    rw [emitItemsTail]
    simp only [List.length_cons, List.length_append]
    have := emitItem_length it
    omega

/-- C10: reading the checklist from a card's notes is total and inverts
writing it.  Serializing any checklist and parsing the notes back yields
exactly the serialized checklist's JSON value (and the JSON encoding is
injective, so it determines the item list); a notes string that does not
parse yields the empty checklist instead of an error, and so do absent
notes. -/
theorem checklist_notes_roundtrip :
    (∀ items : List ChecklistItem,
      checklistOfNotes (some (serializeChecklist items)) = checklistToJson items)
    ∧ (∀ items1 items2 : List ChecklistItem,
        checklistToJson items1 = checklistToJson items2 → items1 = items2)
    ∧ (∀ s : String, parseJson s = none → checklistOfNotes (some s) = Json.arr [])
    ∧ checklistOfNotes none = Json.arr [] := by
  refine ⟨?_, ?_, ?_, rfl⟩
  · intro items
    have hparse : parseJson (serializeChecklist items)
        = some (checklistToJson items) := by
      cases items with
      | nil => rfl
      | cons it its =>
        rw [parseJson]
        rw [show (serializeChecklist (it :: its)).data = emitItems (it :: its)
          from rfl]
        have hlen : 9 + (it :: its).length
            ≤ (serializeChecklist (it :: its)).length + 1 := by
          rw [show (serializeChecklist (it :: its)).length
            = (emitItems (it :: its)).length from rfl]
          rw [emitItems]
          have h1 := emitItem_length it
          have h2 := emitItemsTail_length its
          simp only [List.length_cons, List.length_append]
          omega
        obtain ⟨f, hf⟩ : ∃ f, (serializeChecklist (it :: its)).length + 1
            = f + 9 + (it :: its).length := by
          refine ⟨(serializeChecklist (it :: its)).length + 1
            - (9 + (it :: its).length), ?_⟩
          omega
        rw [hf]
        have hp := parseVal_emitItems (it :: its) f []
        rw [List.append_nil] at hp
        rw [hp]
        simp [skipWs]
    simp [checklistOfNotes, hparse]
  · intro items1 items2 h
    have harr : items1.map itemJson = items2.map itemJson := by
      simpa [checklistToJson] using h
    have hinj : Function.Injective itemJson := by
      intro a b hab
      simp only [itemJson, Json.obj.injEq, List.cons.injEq, Prod.mk.injEq,
        Json.str.injEq, Json.bool.injEq, true_and, and_true] at hab
      cases a
      cases b
      simp_all
    exact List.map_injective_iff.mpr hinj harr
  · intro s h
    simp [checklistOfNotes, h]

/-- Witness for `checklist_notes_roundtrip`: a two-item checklist survives
the write/read cycle, and a non-JSON notes string reads as the empty
checklist. -/
theorem checklist_notes_roundtrip_witness :
    checklistOfNotes (some (serializeChecklist
        [⟨"1", "prep labs", true⟩, ⟨"2", "consent form", false⟩]))
      = checklistToJson [⟨"1", "prep labs", true⟩, ⟨"2", "consent form", false⟩]
    ∧ parseJson "not json" = none
    ∧ checklistOfNotes (some "not json") = Json.arr [] :=
  ⟨checklist_notes_roundtrip.1 _, rfl,
   checklist_notes_roundtrip.2.2.1 "not json" rfl⟩
